import Mathlib

/- Shallow embedding of the declaration-synthesis engine of the
   unified-types-declarator repository.

   The generator walks a parsed TypeScript source file and emits ambient
   declaration text.  We model each AST node as a record carrying exactly
   the fields the generator reads: verbatim source texts stand in for the
   results of node.getText(sourceFile), Option marks fields the TypeScript
   AST makes optional, and Bool marks the presence of a token.  All string
   building mirrors the template literals of the source
   (src/unnamed/part_001 is the current implementation; the enum emitter of
   src/src/index.ts is embedded as a separate definition where the two
   differ). -/

/- ------------------------------------------------------------------ -/
/- String helpers mirroring the JavaScript string operations used.     -/
/- ------------------------------------------------------------------ -/

/-- Substring occurrence test on character lists: containsSub hay needle
decides whether needle occurs contiguously inside hay.  Mirrors
JS String.prototype.includes (the empty needle always occurs). -/
def containsSub : List Char → List Char → Bool
  | _, [] => true
  | [], _ :: _ => false
  | c :: cs, n :: ns =>
    List.isPrefixOf (n :: ns) (c :: cs) || containsSub cs (n :: ns)

/-- JS fileName.includes(pattern). -/
def jsIncludes (s pat : String) : Bool :=
  containsSub s.data pat.data

/-- JS modulePath.startsWith(pre). -/
def jsStartsWith (s pre : String) : Bool :=
  List.isPrefixOf pre.data s.data

/-- The characters of the separator used by getFiles: star followed by dot. -/
def starDotChars : List Char := "*.".data

/-- Worker for JS String.prototype.split with the two-character separator
star-dot: scans left to right, non-overlapping; acc holds the current chunk
reversed.  When the separator is found at the head, exactly its two
characters are consumed. -/
def splitStarDotAux : List Char → List Char → List (List Char)
  | acc, [] => [acc.reverse]
  | acc, [c] => [(c :: acc).reverse]
  | acc, c1 :: c2 :: rest =>
    if List.isPrefixOf starDotChars (c1 :: c2 :: rest) then
      acc.reverse :: splitStarDotAux [] rest
    else
      splitStarDotAux (c1 :: acc) (c2 :: rest)

/-- JS includePath.split(starDot). -/
def splitStarDot (s : String) : List String :=
  (splitStarDotAux [] s.data).map String.mk

/-- includePath.split(starDot).at(-1): each include pattern is reduced to
the text after the last star-dot token; a pattern with no star-dot token is
kept whole (split returns at least one chunk, so the default is unused). -/
def patternSuffix (includePath : String) : String :=
  (splitStarDot includePath).getLastD ""

/- ------------------------------------------------------------------ -/
/- Signature formatter (getJsDocComment, getParametersSignature, ...)  -/
/- ------------------------------------------------------------------ -/

/-- getJsDocComment: concatenates the full text of the attached jsDoc
blocks; a non-empty result is suffixed with a newline, an empty one is
returned as the empty string. -/
def getJsDocComment (jsDocs : List String) : String :=
  let comment := String.join jsDocs
  if comment = "" then "" else comment ++ "\n"

/-- A parameter declaration as read by getParametersSignature.
nameText is parameter.name.getText(sourceFile); nameElems is none for an
identifier binding (the TypeScript node has no .elements field) and some k
for a binding pattern with k elements (a non-empty NodeArray object is
always truthy in JS, so only the length comparison matters); typeText is
the verbatim type-annotation text when present; qTok is the presence of a
question token and hasInit the presence of an initializer. -/
structure Param where
  nameText : String
  nameElems : Option Nat
  typeText : Option String
  qTok : Bool
  hasInit : Bool
  jsDocs : List String

/-- The name finally rendered for a parameter: the binding text, replaced
by the literal placeholder for a binding pattern with more than one
element. -/
def paramDisplayName (p : Param) : String :=
  match p.nameElems with
  | some k => if k > 1 then "param" else p.nameText
  | none => p.nameText

/-- The optionality marker of a parameter fragment. -/
def paramOpt (p : Param) : String :=
  if p.qTok || p.hasInit then "?" else ""

/-- The type text of a parameter fragment: verbatim annotation text, or the
placeholder when the annotation is absent. -/
def paramType (p : Param) : String :=
  p.typeText.getD "unknown"

/-- One parameter fragment of getParametersSignature. -/
def paramFragment (p : Param) : String :=
  getJsDocComment p.jsDocs ++ paramDisplayName p ++ paramOpt p ++ ": " ++ paramType p

/-- getParametersSignature: parameters.map(...).join(", "). -/
def getParametersSignature (params : List Param) : String :=
  String.intercalate ", " (params.map paramFragment)

/-- A property member (PropertySignature or PropertyDeclaration) as read by
getPropertySignature. -/
structure PropMember where
  nameText : String
  typeText : Option String
  jsDocs : List String

/-- getPropertySignature of src/unnamed/part_001. -/
def getPropertySignature (member : PropMember) : String :=
  "\n  " ++ getJsDocComment member.jsDocs ++ "  " ++ member.nameText ++ ": " ++
    member.typeText.getD "unknown" ++ "\n"

/-- getGenerics: comma-joined type-parameter names, empty when there are
none (the accumulator starts empty and the first name is appended bare). -/
def getGenerics (typeParams : List String) : String :=
  typeParams.foldl (fun acc p => acc ++ (if acc = "" then p else ", " ++ p)) ""

/- ------------------------------------------------------------------ -/
/- Enum emitter                                                        -/
/- ------------------------------------------------------------------ -/

/-- One enum member: its name text and its verbatim initializer text when
an initializer is present. -/
structure EnumMember where
  nameText : String
  init : Option String

structure EnumDecl where
  name : String
  members : List EnumMember

/-- One line of the enum body: member name, equals sign, verbatim
initializer text (empty when the member has no initializer), comma. -/
def enumMemberLine (member : EnumMember) : String :=
  "  " ++ member.nameText ++ "=" ++ member.init.getD "" ++ ",\n"

/-- The accumulated membersInfo of generateTypeEnumeration. -/
def enumMembersInfo (members : List EnumMember) : String :=
  members.foldl (fun acc m => acc ++ enumMemberLine m) ""

/-- generateTypeEnumeration of src/unnamed/part_001: two newlines follow
the closing brace. -/
def generateTypeEnumeration (node : EnumDecl) : String :=
  "declare enum " ++ node.name ++ " \x7b\n" ++ enumMembersInfo node.members ++ "\x7d\n\n"

/-- generateTypeEnumeration of src/src/index.ts: identical to the
part_001 variant except that a single newline follows the closing brace. -/
def generateTypeEnumerationIdx (node : EnumDecl) : String :=
  "declare enum " ++ node.name ++ " \x7b\n" ++ enumMembersInfo node.members ++ "\x7d\n"

/- ------------------------------------------------------------------ -/
/- Method, interface, function, class, type-alias, variable emitters   -/
/- ------------------------------------------------------------------ -/

/-- A MethodDeclaration or MethodSignature as read by the emitters.  The
name field of these nodes is required by the TypeScript AST (name:
PropertyName), so the defensive falsy check on it in generateTypeMethod
can never fire and the name is modelled as always present. -/
structure MethodNode where
  name : String
  typeText : Option String
  params : List Param
  typeParams : List String
  jsDocs : List String

/-- generateTypeMethod of src/unnamed/part_001: a two-space indented line;
a missing return-type annotation renders as void. -/
def generateTypeMethod (node : MethodNode) : String :=
  let genericTypes := getGenerics node.typeParams
  let methodSignature := node.typeText.getD "void"
  let parameters := getParametersSignature node.params
  let comment := getJsDocComment node.jsDocs
  let g := if genericTypes = "" then "" else "<" ++ genericTypes ++ ">"
  "  " ++ comment ++ node.name ++ g ++ "(" ++ parameters ++ "): " ++ methodSignature ++ "\n"

/-- A member of an interface body or of a literal type bag; member kinds
the emitters do not match (index signatures, call signatures, ...)
contribute nothing and are collapsed into the last constructor. -/
inductive IfaceMember where
  | prop (p : PropMember)
  | method (m : MethodNode)
  | other

/-- The method-signature line rendered inline by generateTypeInterface: a
missing return-type annotation renders as unknown there. -/
def ifaceMethodLine (m : MethodNode) : String :=
  "  " ++ m.name ++ "(" ++ getParametersSignature m.params ++ "): " ++
    m.typeText.getD "unknown" ++ "\n"

/-- The accumulated membersInfo of generateTypeInterface. -/
def ifaceMembersInfo (members : List IfaceMember) : String :=
  members.foldl
    (fun acc mem =>
      match mem with
      | IfaceMember.prop p => acc ++ getPropertySignature p
      | IfaceMember.method m => acc ++ ifaceMethodLine m
      | IfaceMember.other => acc) ""

structure IfaceDecl where
  name : String
  typeParams : List String
  members : List IfaceMember

/-- generateTypeInterface of src/unnamed/part_001.  Note the space written
before the generics slot even when it is empty. -/
def generateTypeInterface (node : IfaceDecl) : String :=
  let g0 := getGenerics node.typeParams
  let genericTypes := if g0 = "" then "" else "<" ++ g0 ++ ">"
  "declare interface " ++ node.name ++ " " ++ genericTypes ++ " \x7b\n" ++
    ifaceMembersInfo node.members ++ "\x7d\n\n"

/-- A FunctionDeclaration: its name is optional in the AST; name?.text is
falsy both when the node is absent and when the text is empty. -/
structure FunctionDecl where
  name : Option String
  params : List Param
  typeText : Option String

/-- generateTypeFunction of src/unnamed/part_001: anonymous functions
produce nothing; a missing return-type annotation renders as void (with no
space after the colon). -/
def generateTypeFunction (node : FunctionDecl) : String :=
  match node.name with
  | none => ""
  | some fn =>
    if fn = "" then ""
    else
      "declare function " ++ fn ++ "(" ++ getParametersSignature node.params ++ "):" ++
        node.typeText.getD "void" ++ "\n\n"

/-- The modifier kinds distinguished by generateVariableDeclarationType. -/
inductive Modifier where
  | declareKw
  | exportKw
  | otherKw
  deriving DecidableEq

/-- One declarator of a variable statement: whether its binding name is a
plain identifier, and its verbatim declaration.getText() text. -/
structure VarDeclarator where
  nameIsIdent : Bool
  text : String

/-- A top-level VariableStatement; an empty modifiers list models an
absent modifier array (both are rejected by the emitter). -/
structure VarStatement where
  modifiers : List Modifier
  decls : List VarDeclarator
  jsDocs : List String

/-- generateVariableDeclarationType of src/unnamed/part_001: emits only
when the first modifier is the declare keyword, concatenating the verbatim
text of every identifier-named declarator after the fixed prelude. -/
def generateVariableDeclarationType (node : VarStatement) : String :=
  let comment := getJsDocComment node.jsDocs
  if node.modifiers.head? = some Modifier.declareKw then
    comment ++
      node.decls.foldl (fun acc d => if d.nameIsIdent then acc ++ d.text else acc)
        "declare const " ++ "\n\n"
  else ""

/-- A ConstructorDeclaration as read by generateClassType. -/
structure CtorNode where
  params : List Param
  typeParams : List String
  jsDocs : List String

/-- The constructor line of generateClassType (the inline loop over the
constructor type parameters builds the same string as getGenerics). -/
def classCtorLine (c : CtorNode) : String :=
  let parameters := getParametersSignature c.params
  let comment := getJsDocComment c.jsDocs
  let g0 := getGenerics c.typeParams
  let genericTypes := if g0 = "" then "" else "<" ++ g0 ++ ">"
  "  " ++ comment ++ "constructor" ++ genericTypes ++ "(" ++ parameters ++ ")\n"

/-- A member of a class body; unmatched member kinds contribute nothing. -/
inductive ClassMember where
  | prop (p : PropMember)
  | method (m : MethodNode)
  | ctor (c : CtorNode)
  | other

/-- The accumulated membersInfo of generateClassType. -/
def classMembersInfo (members : List ClassMember) : String :=
  members.foldl
    (fun acc mem =>
      match mem with
      | ClassMember.prop p => acc ++ getPropertySignature p
      | ClassMember.method m => acc ++ generateTypeMethod m
      | ClassMember.ctor c => acc ++ classCtorLine c
      | ClassMember.other => acc) ""

structure ClassDecl where
  name : Option String
  typeParams : List String
  members : List ClassMember

/-- generateClassType of src/unnamed/part_001: anonymous classes produce
nothing; the body opens with a blank line and the closing brace is
followed by a single newline. -/
def generateClassType (node : ClassDecl) : String :=
  match node.name with
  | none => ""
  | some cn =>
    let g0 := getGenerics node.typeParams
    let genericClass := if g0 = "" then "" else "<" ++ g0 ++ ">"
    "declare class " ++ cn ++ genericClass ++ " \x7b\n\n" ++
      classMembersInfo node.members ++ "\x7d\n"

/-- The shape of the aliased type of a TypeAliasDeclaration, as
discriminated by generateTypeType: a function type (whose declared return
type is expanded only when it is a literal type bag, and is dropped
otherwise), a literal type bag, or any other type kept verbatim. -/
inductive AliasBody where
  | funcType (params : List Param) (retLiteral : Option (List IfaceMember))
  | typeLiteral (members : List IfaceMember)
  | otherType (text : String)

structure AliasDecl where
  name : String
  typeParams : List String
  body : AliasBody

/-- The literal-type-bag body rendered for the plain type-literal case of
generateTypeType (method lines there carry no trailing newline). -/
def aliasBagInfo (members : List IfaceMember) : String :=
  members.foldl
    (fun acc mem =>
      match mem with
      | IfaceMember.method m =>
        acc ++ "  " ++ m.name ++ ": (" ++ getParametersSignature m.params ++ ") => " ++
          m.typeText.getD "unknown"
      | IfaceMember.prop p => acc ++ getPropertySignature p
      | IfaceMember.other => acc) ""

/-- The literal-type-bag body rendered for the function-type case of
generateTypeType, which reuses generateTypeMethod for method members. -/
def aliasFuncBagInfo (members : List IfaceMember) : String :=
  members.foldl
    (fun acc mem =>
      match mem with
      | IfaceMember.method m => acc ++ generateTypeMethod m
      | IfaceMember.prop p => acc ++ getPropertySignature p
      | IfaceMember.other => acc) ""

/-- generateTypeType of src/unnamed/part_001. -/
def generateTypeType (node : AliasDecl) : String :=
  let g0 := getGenerics node.typeParams
  let generic := if g0 = "" then "" else "<" ++ g0 ++ ">"
  let declHead := "declare type " ++ node.name ++ generic ++ " = "
  match node.body with
  | AliasBody.funcType params retLiteral =>
    let parametersDeclaration := getParametersSignature params
    let declWithParams :=
      if parametersDeclaration = "" then declHead
      else declHead ++ "(" ++ parametersDeclaration ++ ")"
    let membersInfo :=
      match retLiteral with
      | some ms => " => \x7b\n" ++ aliasFuncBagInfo ms ++ "\x7d"
      | none => ""
    declWithParams ++ membersInfo ++ "\n\n"
  | AliasBody.typeLiteral ms =>
    declHead ++ "\x7b\n" ++ aliasBagInfo ms ++ "\x7d" ++ "\n\n"
  | AliasBody.otherType t => declHead ++ t ++ "\n\n"

/- ------------------------------------------------------------------ -/
/- Import deduplication path (generateTypeImport)                     -/
/- ------------------------------------------------------------------ -/

/-- The named bindings of an import clause: a NamedImports list of binding
names, or a namespace import (which the generator ignores). -/
inductive NamedBindings where
  | named (elements : List String)
  | nsImport

/-- An ImportDeclaration as read by generateTypeImport.  moduleSpec is the
text of the module specifier when it is a string literal; the outer Option
of clause models the presence of the import clause and the inner Option
the presence of named bindings. -/
structure ImportNode where
  moduleSpec : Option String
  clause : Option (Option NamedBindings)

/-- JS new Set(array) enumerated in insertion order: duplicates collapse
onto their first occurrence. -/
def dedupKeepFirst (l : List String) : List String :=
  l.foldl (fun acc x => if acc.contains x then acc else acc ++ [x]) []

/-- One step of the recording loop of generateTypeImport: the state is the
recorded-name set (as an insertion-ordered list) paired with the names
newly added during this call. -/
def addImportStep (st : List String × List String) (e : String) :
    List String × List String :=
  if st.fst.contains e then st else (st.fst ++ [e], st.snd ++ [e])

/-- The recording loop of generateTypeImport over the requested binding
names, starting from the names already recorded for the module. -/
def addNewImports (recorded : List String) (elements : List String) :
    List String × List String :=
  elements.foldl addImportStep (recorded, [])

/-- The names newly recorded by a subsequent call for an already-seen
module. -/
def newImportNames (recorded : List String) (elements : List String) : List String :=
  (addNewImports recorded elements).snd

/-- The import line rendered on a subsequent call: empty when no name is
new, otherwise the incrementally built line (note the space after the
opening brace and none before the closing one). -/
def renderNewImports (news : List String) (modulePath : String) : String :=
  match news with
  | [] => ""
  | n :: rest =>
    "import \x7b " ++ rest.foldl (fun acc x => acc ++ ", " ++ x) n ++
      "\x7d from \x27" ++ modulePath ++ "\x27\n\n"

/-- Replaces the binding set recorded for a key, appending a new entry when
the key is absent (the JS Map mutation collapsed to a functional update). -/
def mapSet (m : List (String × List String)) (k : String) (v : List String) :
    List (String × List String) :=
  if (m.lookup k).isSome then
    m.map (fun kv => if kv.fst = k then (k, v) else kv)
  else m ++ [(k, v)]

/-- generateTypeImport of src/unnamed/part_001, with the importMap field
made an explicit argument and result.  Only non-relative, non-absolute
string-literal module paths with named bindings are processed; the first
call for a module renders one combined line joined with bare commas, a
subsequent call renders a fresh line holding only the names not yet
recorded, or nothing. -/
def generateTypeImport (importMap : List (String × List String)) (node : ImportNode) :
    List (String × List String) × String :=
  match node.moduleSpec with
  | none => (importMap, "")
  | some modulePath =>
    match node.clause with
    | none => (importMap, "")
    | some bindings =>
      if modulePath = "" || jsStartsWith modulePath "." || jsStartsWith modulePath "/" then
        (importMap, "")
      else
        match bindings with
        | none => (importMap, "")
        | some NamedBindings.nsImport => (importMap, "")
        | some (NamedBindings.named elements) =>
          match importMap.lookup modulePath with
          | some recorded =>
            let st := addNewImports recorded elements
            (mapSet importMap modulePath st.fst, renderNewImports st.snd modulePath)
          | none =>
            let names := dedupKeepFirst elements
            (importMap ++ [(modulePath, names)],
              "import \x7b" ++ String.intercalate "," names ++ "\x7d from \x27" ++
                modulePath ++ "\x27\n\n")

/- ------------------------------------------------------------------ -/
/- Traversal engine (generateTypeDeclarationFromFile)                 -/
/- ------------------------------------------------------------------ -/

/-- A direct top-level child of a source file, tagged with the node kinds
the dispatch chain discriminates; otherNode stands for every kind the
chain does not test. -/
inductive TopNode where
  | enumNode (e : EnumDecl)
  | classNode (c : ClassDecl)
  | ifaceNode (i : IfaceDecl)
  | aliasNode (a : AliasDecl)
  | funcNode (f : FunctionDecl)
  | methodNode (m : MethodNode)
  | varNode (v : VarStatement)
  | importNode (i : ImportNode)
  | otherNode

/- The guard of each branch of the dispatch chain, in source order.  The
name conjuncts mirror the source: enum, interface, type-alias and method
names are required AST fields (always truthy), class and function names
are optional nodes. -/

def condEnum : TopNode → Bool
  | TopNode.enumNode _ => true
  | _ => false

def condClass : TopNode → Bool
  | TopNode.classNode c => c.name.isSome
  | _ => false

def condIface : TopNode → Bool
  | TopNode.ifaceNode _ => true
  | _ => false

def condAlias : TopNode → Bool
  | TopNode.aliasNode _ => true
  | _ => false

def condFunc : TopNode → Bool
  | TopNode.funcNode f => f.name.isSome
  | _ => false

def condMethod : TopNode → Bool
  | TopNode.methodNode _ => true
  | _ => false

def condVar : TopNode → Bool
  | TopNode.varNode _ => true
  | _ => false

/- The emitter invoked by each branch, as a total function on TopNode. -/

def emitEnumOn : TopNode → String
  | TopNode.enumNode e => generateTypeEnumeration e
  | _ => ""

def emitClassOn : TopNode → String
  | TopNode.classNode c => generateClassType c
  | _ => ""

def emitIfaceOn : TopNode → String
  | TopNode.ifaceNode i => generateTypeInterface i
  | _ => ""

def emitAliasOn : TopNode → String
  | TopNode.aliasNode a => generateTypeType a
  | _ => ""

def emitFuncOn : TopNode → String
  | TopNode.funcNode f => generateTypeFunction f
  | _ => ""

def emitMethodOn : TopNode → String
  | TopNode.methodNode m => generateTypeMethod m
  | _ => ""

def emitVarOn : TopNode → String
  | TopNode.varNode v => generateVariableDeclarationType v
  | _ => ""

/-- The dispatch chain of generateTypeDeclarationFromFile, as the nested
if-else of the source: Enum, Class, Interface, TypeAlias, Function,
Method, VariableStatement; the trailing ImportDeclaration branch has its
body commented out in the source and contributes nothing, like every
unrecognized kind. -/
def emitTopNode (n : TopNode) : String :=
  if condEnum n then emitEnumOn n
  else if condClass n then emitClassOn n
  else if condIface n then emitIfaceOn n
  else if condAlias n then emitAliasOn n
  else if condFunc n then emitFuncOn n
  else if condMethod n then emitMethodOn n
  else if condVar n then emitVarOn n
  else ""

/-- The dispatch table: each branch guard paired with the text its emitter
would produce, in the priority order of the chain. -/
def dispatchTable (n : TopNode) : List (Bool × String) :=
  [(condEnum n, emitEnumOn n), (condClass n, emitClassOn n),
   (condIface n, emitIfaceOn n), (condAlias n, emitAliasOn n),
   (condFunc n, emitFuncOn n), (condMethod n, emitMethodOn n),
   (condVar n, emitVarOn n)]

/-- The emission selected by the first matching guard, or nothing. -/
def firstMatchEmit (n : TopNode) : String :=
  match (dispatchTable n).find? (fun pr => pr.fst) with
  | some pr => pr.snd
  | none => ""

/-- generateTypeDeclarationFromFile restricted to its traversal: the
per-node emissions are concatenated over the direct children in order, and
an empty accumulation is reported as null. -/
def generateTypeDeclarationFromFile (nodes : List TopNode) : Option String :=
  let declarations := nodes.foldl (fun acc n => acc ++ emitTopNode n) ""
  if declarations = "" then none else some declarations

/- ------------------------------------------------------------------ -/
/- File selector (getFiles) and the run driver                         -/
/- ------------------------------------------------------------------ -/

/-- The keep-condition of the getFiles filter: JS patterns.find(...) hands
back the first pattern the file name includes, and that value is used as
the filter predicate, so a found empty-string pattern is falsy and drops
the file. -/
def jsFindTruthy (patterns : List String) (fileName : String) : Bool :=
  match patterns.find? (fun pattern => jsIncludes fileName pattern) with
  | some p => p != ""
  | none => false

/-- getFiles of src/unnamed/part_001: fails when rootDir is missing or
empty (both falsy), otherwise reduces every include pattern to its
star-dot suffix and keeps the files whose path includes a truthy match.
The recursive directory listing is abstracted to its result fileNames. -/
def getFiles (rootDir : Option String) (tsConfigPath : String)
    (fileNames : List String) (includePatterns : List String) :
    Except String (List String) :=
  if rootDir.getD "" = "" then
    Except.error ("Expected rootDir option in " ++ tsConfigPath ++ " session compilerOptions")
  else
    let patterns := includePatterns.map patternSuffix
    Except.ok (fileNames.filter (fun fileName => jsFindTruthy patterns fileName))

/-- The configuration document fields the driver reads.  compilerOptions
itself is taken as present (the parsed JSON object). -/
structure TsConfig where
  rootDir : Option String
  outFile : Option String
  includePatterns : List String

/-- The outcome of a run: the thrown error or produced output text,
whether the pre-existing file at outFile was removed, and whether the
output file was written. -/
structure RunResult where
  result : Except String String
  removedOutput : Bool
  wroteOutput : Bool

/-- run of src/unnamed/part_001, after the configuration has been read.
Step order mirrors the source exactly: resolving the output path (a
missing outFile makes path.resolve throw a TypeError), then the removal of
a pre-existing file at the output path, then the falsy-outFile check, then
getFiles (which throws when rootDir is missing), then the per-file
generation loop, then the write.  Parsing and emission for one file are
abstracted into emitFile; outputExists abstracts fs.existsSync at the
output path. -/
def run (cfg : TsConfig) (tsConfigPath : String) (outputExists : Bool)
    (fileNames : List String) (emitFile : String → Option String) : RunResult :=
  match cfg.outFile with
  | none =>
    { result := Except.error "TypeError: the paths argument must be of type string",
      removedOutput := false, wroteOutput := false }
  | some outF =>
    let removed := outputExists
    if outF = "" then
      { result := Except.error ("Expected outFile option in " ++ tsConfigPath ++
          " session compilerOptions"),
        removedOutput := removed, wroteOutput := false }
    else
      match getFiles cfg.rootDir tsConfigPath fileNames cfg.includePatterns with
      | Except.error e =>
        { result := Except.error e, removedOutput := removed, wroteOutput := false }
      | Except.ok files =>
        let outputContent := files.foldl
          (fun acc file =>
            match emitFile file with
            | some d => acc ++ d ++ "\n"
            | none => acc) ""
        { result := Except.ok outputContent, removedOutput := removed, wroteOutput := true }

/- ------------------------------------------------------------------ -/
/- Claims                                                              -/
/- ------------------------------------------------------------------ -/

/-- Claim C1, counterexample: the claim says every method signature in an
interface lacking a return-type annotation renders its return type as
void, but generateTypeInterface renders the placeholder unknown there: on
an interface I with one method m() without a return type the emitted
declaration carries unknown, which differs from the declaration the claim
requires. -/
theorem interface_missing_return_not_void :
    generateTypeInterface ⟨"I", [], [IfaceMember.method ⟨"m", none, [], [], []⟩]⟩ =
      "declare interface I  \x7b\n  m(): unknown\n\x7d\n\n" ∧
    ("declare interface I  \x7b\n  m(): unknown\n\x7d\n\n" : String) ≠
      "declare interface I  \x7b\n  m(): void\n\x7d\n\n" :=
  ⟨rfl, by decide⟩

/-- Claim C1 (amended): a function declaration without a return-type
annotation renders void, and so does a method rendered through
generateTypeMethod (class method declarations, top-level methods, and
methods of a function-type alias bag); but a method signature rendered
inline by the interface emitter renders the placeholder unknown instead. -/
theorem missing_return_void_except_interface (f : FunctionDecl) (m : MethodNode)
    (n : String) (hf : f.typeText = none) (hm : m.typeText = none)
    (hn : f.name = some n) (hne : n ≠ "") :
    generateTypeFunction f =
      "declare function " ++ n ++ "(" ++ getParametersSignature f.params ++ "):" ++
        "void" ++ "\n\n" ∧
    generateTypeMethod m =
      "  " ++ getJsDocComment m.jsDocs ++ m.name ++
        (if getGenerics m.typeParams = "" then "" else "<" ++ getGenerics m.typeParams ++ ">") ++
        "(" ++ getParametersSignature m.params ++ "): " ++ "void" ++ "\n" ∧
    ifaceMethodLine m =
      "  " ++ m.name ++ "(" ++ getParametersSignature m.params ++ "): " ++ "unknown" ++ "\n" := by
  refine ⟨?_, ?_, ?_⟩
  · simp [generateTypeFunction, hn, hne, hf]
  · simp [generateTypeMethod, hm]
  · simp [ifaceMethodLine, hm]

/-- Claim C1, witness for the amended statement at concrete nodes. -/
theorem missing_return_void_except_interface_witness :
    generateTypeFunction ⟨some "g", [], none⟩ = "declare function g():void\n\n" ∧
    generateTypeMethod ⟨"m", none, [], [], []⟩ = "  m(): void\n" ∧
    ifaceMethodLine ⟨"m", none, [], [], []⟩ = "  m(): unknown\n" := by
  have h := missing_return_void_except_interface ⟨some "g", [], none⟩ ⟨"m", none, [], [], []⟩
    "g" rfl rfl rfl (by decide)
  refine ⟨?_, ?_, ?_⟩
  · rw [h.1]; rfl
  · rw [h.2.1]; rfl
  · rw [h.2.2]; rfl

/-- Claim C2: the dispatch chain of generateTypeDeclarationFromFile tests
the kind guards in the fixed order Enum, Class, Interface, TypeAlias,
Function, Method, VariableStatement; at most one guard of the table holds
for any node, and the chain's emission is exactly the emission of the
first matching guard (so no node is emitted twice). -/
theorem dispatch_first_match_unique (n : TopNode) :
    ((dispatchTable n).countP (fun pr => pr.fst)) ≤ 1 ∧
    emitTopNode n = firstMatchEmit n := by
  cases n with
  | classNode c =>
    cases hc : c.name <;>
      simp [dispatchTable, emitTopNode, firstMatchEmit, List.find?, List.countP_cons,
        List.countP_nil, condEnum, condClass, condIface, condAlias, condFunc, condMethod,
        condVar, hc]
  | funcNode f =>
    cases hf : f.name <;>
      simp [dispatchTable, emitTopNode, firstMatchEmit, List.find?, List.countP_cons,
        List.countP_nil, condEnum, condClass, condIface, condAlias, condFunc, condMethod,
        condVar, hf]
  | _ =>
    simp [dispatchTable, emitTopNode, firstMatchEmit, List.find?, List.countP_cons,
      List.countP_nil, condEnum, condClass, condIface, condAlias, condFunc, condMethod,
      condVar]

/-- Claim C3: an enum member with an initializer is rendered with the
initializer's verbatim text after the equals sign and one without is
rendered with an empty value there; on the Scenario A input the enum
emitter of src/src/index.ts produces exactly the claimed string (the
sibling emitter in src/unnamed/part_001 appends one extra newline after
the closing brace). -/
theorem enum_members_verbatim_scenarioA :
    (∀ nm v, enumMemberLine ⟨nm, some v⟩ = "  " ++ nm ++ "=" ++ v ++ ",\n") ∧
    (∀ nm, enumMemberLine ⟨nm, none⟩ = "  " ++ nm ++ "=" ++ "" ++ ",\n") ∧
    generateTypeEnumerationIdx ⟨"Color", [⟨"Red", none⟩, ⟨"Green", some "2"⟩]⟩ =
      "declare enum Color \x7b\n  Red=,\n  Green=2,\n\x7d\n" :=
  ⟨fun _ _ => rfl, fun _ => rfl, rfl⟩

/-- Claim C4: a parameter bound to a destructuring pattern with more than
one element is rendered under the literal placeholder name, while a
single-element pattern or a plain identifier keeps its own verbatim text;
the rendered name is what the fragment carries between the documentation
and the optionality marker. -/
theorem destructured_param_placeholder (p : Param) :
    ((∃ k, p.nameElems = some k ∧ 1 < k) → paramDisplayName p = "param") ∧
    ((p.nameElems = none ∨ p.nameElems = some 1) → paramDisplayName p = p.nameText) ∧
    paramFragment p =
      getJsDocComment p.jsDocs ++ paramDisplayName p ++ paramOpt p ++ ": " ++ paramType p := by
  refine ⟨?_, ?_, rfl⟩
  · rintro ⟨k, hk, hk1⟩
    simp [paramDisplayName, hk, hk1]
  · rintro (h | h) <;> simp [paramDisplayName, h]

/-- Claim C4, witness: a two-element pattern renders as the placeholder, a
plain identifier keeps its text. -/
theorem destructured_param_placeholder_witness :
    paramDisplayName ⟨"[a, b]", some 2, none, false, false, []⟩ = "param" ∧
    paramDisplayName ⟨"x", none, none, false, false, []⟩ = "x" := by
  have h1 := destructured_param_placeholder ⟨"[a, b]", some 2, none, false, false, []⟩
  have h2 := destructured_param_placeholder ⟨"x", none, none, false, false, []⟩
  exact ⟨h1.1 ⟨2, rfl, by decide⟩, h2.2.1 (Or.inl rfl)⟩

/-- Claim C5: a parameter fragment carries the optionality marker exactly
when the parameter has a question token or an initializer, its type text
is the unknown placeholder exactly when the annotation is absent (assuming
no annotation is itself the literal word unknown), and the fragments are
joined by a comma and a space. -/
theorem param_optional_unknown (p : Param) (params : List Param)
    (hp : ∀ t, p.typeText = some t → t ≠ "unknown") :
    (paramOpt p = "?" ↔ (p.qTok || p.hasInit) = true) ∧
    (paramType p = "unknown" ↔ p.typeText = none) ∧
    paramFragment p =
      getJsDocComment p.jsDocs ++ paramDisplayName p ++ paramOpt p ++ ": " ++ paramType p ∧
    getParametersSignature params = String.intercalate ", " (params.map paramFragment) := by
  refine ⟨?_, ?_, rfl, rfl⟩
  · cases hq : p.qTok <;> cases hi : p.hasInit <;> simp [paramOpt, hq, hi]
  · cases ht : p.typeText with
    | none => simp [paramType, ht]
    | some t => simp [paramType, ht, hp t ht]

/-- Claim C5, witness: an annotation-free parameter with an initializer is
optional and typed with the placeholder. -/
theorem param_optional_unknown_witness :
    paramOpt ⟨"x", none, none, false, true, []⟩ = "?" ∧
    paramType ⟨"x", none, none, false, true, []⟩ = "unknown" := by
  have h := param_optional_unknown ⟨"x", none, none, false, true, []⟩ []
    (fun t ht => Option.noConfusion ht)
  exact ⟨h.1.mpr rfl, h.2.1.mpr rfl⟩

/-- Helper: the keep-condition of the getFiles filter holds exactly when
some include pattern's suffix occurs in the file name, provided no
configured pattern reduces to an empty suffix (an empty suffix is a falsy
find result and would drop the file). -/
theorem jsFindTruthy_iff (includePatterns : List String) (f : String)
    (hsuf : ∀ q ∈ includePatterns, patternSuffix q ≠ "") :
    jsFindTruthy (includePatterns.map patternSuffix) f = true ↔
      ∃ q ∈ includePatterns, jsIncludes f (patternSuffix q) = true := by
  constructor
  · intro h
    unfold jsFindTruthy at h
    cases hfind : (includePatterns.map patternSuffix).find? (fun pattern => jsIncludes f pattern) with
    | none => rw [hfind] at h; cases h
    | some p =>
      rw [hfind] at h
      have hmem := List.mem_of_find?_eq_some hfind
      have hp := List.find?_some hfind
      obtain ⟨q, hq, hqp⟩ := List.mem_map.mp hmem
      exact ⟨q, hq, by rw [hqp]; exact hp⟩
  · rintro ⟨q, hq, hinc⟩
    unfold jsFindTruthy
    have hs : ((includePatterns.map patternSuffix).find?
        (fun pattern => jsIncludes f pattern)).isSome := by
      rw [List.find?_isSome]
      exact ⟨patternSuffix q, List.mem_map_of_mem _ hq, hinc⟩
    cases hfind : (includePatterns.map patternSuffix).find? (fun pattern => jsIncludes f pattern) with
    | none => rw [hfind] at hs; cases hs
    | some p =>
      have hmem := List.mem_of_find?_eq_some hfind
      obtain ⟨q2, hq2, hqp2⟩ := List.mem_map.mp hmem
      have hne : p ≠ "" := by rw [← hqp2]; exact hsuf q2 hq2
      exact bne_iff_ne.mpr hne

/-- Helper: membership in a successful getFiles result. -/
theorem getFiles_mem (rootDir tsPath : String)
    (fileNames includePatterns selected : List String) (hroot : rootDir ≠ "")
    (hsuf : ∀ q ∈ includePatterns, patternSuffix q ≠ "")
    (hok : getFiles (some rootDir) tsPath fileNames includePatterns = Except.ok selected)
    (f : String) :
    f ∈ selected ↔
      f ∈ fileNames ∧ ∃ q ∈ includePatterns, jsIncludes f (patternSuffix q) = true := by
  have h0 : getFiles (some rootDir) tsPath fileNames includePatterns =
      Except.ok (fileNames.filter
        (fun fileName => jsFindTruthy (includePatterns.map patternSuffix) fileName)) := by
    simp [getFiles, hroot]
  rw [h0] at hok
  injection hok with hok
  subst hok
  rw [List.mem_filter, jsFindTruthy_iff includePatterns f hsuf]

/-- Claim C6: with a usable rootDir and every configured pattern reducing
to a non-empty suffix after the last star-dot token, getFiles succeeds and
keeps a file exactly when its path contains some configured pattern's
suffix as a substring — no other glob semantics are applied. -/
theorem selector_suffix_substring (rootDir tsPath : String)
    (fileNames includePatterns : List String) (hroot : rootDir ≠ "")
    (hsuf : ∀ q ∈ includePatterns, patternSuffix q ≠ "") :
    ∃ selected,
      getFiles (some rootDir) tsPath fileNames includePatterns = Except.ok selected ∧
      ∀ f, f ∈ selected ↔
        f ∈ fileNames ∧ ∃ q ∈ includePatterns, jsIncludes f (patternSuffix q) = true := by
  refine ⟨fileNames.filter
    (fun fileName => jsFindTruthy (includePatterns.map patternSuffix) fileName), ?_, ?_⟩
  · simp [getFiles, hroot]
  · intro f
    exact getFiles_mem rootDir tsPath fileNames includePatterns _ hroot hsuf
      (by simp [getFiles, hroot]) f

/-- Claim C6, witness at a concrete configuration. -/
theorem selector_suffix_substring_witness :
    ∃ selected,
      getFiles (some "root") "tsconfig.json" ["a.ts", "b.md"] ["src/*.ts"] =
        Except.ok selected ∧
      ∀ f, f ∈ selected ↔
        f ∈ ["a.ts", "b.md"] ∧ ∃ q ∈ ["src/*.ts"], jsIncludes f (patternSuffix q) = true :=
  selector_suffix_substring "root" "tsconfig.json" ["a.ts", "b.md"] ["src/*.ts"]
    (by decide) (by decide)

/-- Helper: when the separator never occurs in the remaining input, the
split worker returns a single chunk, the pending accumulator followed by
that input. -/
theorem splitStarDotAux_no_occ :
    ∀ (n : Nat) (s acc : List Char), s.length ≤ n →
      containsSub s starDotChars = false →
      splitStarDotAux acc s = [acc.reverse ++ s] := by
  intro n
  induction n with
  | zero =>
    intro s acc hle _
    have hnil : s = [] := List.eq_nil_of_length_eq_zero (Nat.le_zero.mp hle)
    subst hnil
    simp [splitStarDotAux]
  | succ n ih =>
    intro s acc hle h
    match s with
    | [] => simp [splitStarDotAux]
    | [c] => simp [splitStarDotAux]
    | c1 :: c2 :: rest =>
      have hstep : containsSub (c1 :: c2 :: rest) starDotChars =
          (List.isPrefixOf starDotChars (c1 :: c2 :: rest) ||
            containsSub (c2 :: rest) starDotChars) := rfl
      rw [hstep, Bool.or_eq_false_iff] at h
      obtain ⟨hpre, htail⟩ := h
      have hcond : ¬ (List.isPrefixOf starDotChars (c1 :: c2 :: rest) = true) := by
        rw [hpre]; exact Bool.false_ne_true
      rw [show splitStarDotAux acc (c1 :: c2 :: rest) =
          (if List.isPrefixOf starDotChars (c1 :: c2 :: rest) then
            acc.reverse :: splitStarDotAux [] rest
          else splitStarDotAux (c1 :: acc) (c2 :: rest)) from rfl]
      rw [if_neg hcond]
      have hlen : (c2 :: rest).length ≤ n := by
        simp only [List.length_cons] at hle ⊢
        omega
      rw [ih (c2 :: rest) (c1 :: acc) hlen htail]
      simp [List.append_assoc]

/-- Helper: a pattern in which the star-dot token never occurs is its own
suffix. -/
theorem patternSuffix_no_occ (p : String) (h : jsIncludes p "*." = false) :
    patternSuffix p = p := by
  have h2 : containsSub p.data starDotChars = false := h
  unfold patternSuffix splitStarDot
  rw [splitStarDotAux_no_occ p.data.length p.data [] le_rfl h2]
  simp

/-- Claim C10: an include pattern with no star-dot token is used whole as
the substring test, and (under the usable-selector side conditions of the
file filter) a listed file whose path contains the whole pattern is
selected. -/
theorem pattern_without_star_whole (p : String) (hno : jsIncludes p "*." = false) :
    patternSuffix p = p ∧
    ∀ (rootDir tsPath f : String) (fileNames includePatterns selected : List String),
      rootDir ≠ "" → (∀ q ∈ includePatterns, patternSuffix q ≠ "") →
      p ∈ includePatterns → jsIncludes f p = true → f ∈ fileNames →
      getFiles (some rootDir) tsPath fileNames includePatterns = Except.ok selected →
      f ∈ selected := by
  have hps := patternSuffix_no_occ p hno
  refine ⟨hps, ?_⟩
  intro rootDir tsPath f fileNames includePatterns selected hroot hsuf hmem hinc hf hok
  rw [getFiles_mem rootDir tsPath fileNames includePatterns selected hroot hsuf hok f]
  exact ⟨hf, p, hmem, by rw [hps]; exact hinc⟩

/-- Claim C10, witness: the pattern src selects a listed file whose path
contains src. -/
theorem pattern_without_star_whole_witness :
    patternSuffix "src" = "src" ∧ "dir/src/a.md" ∈ (["dir/src/a.md"] : List String) := by
  have h := pattern_without_star_whole "src" (by decide)
  refine ⟨h.1, ?_⟩
  exact h.2 "root" "t.json" "dir/src/a.md" ["b.xx", "dir/src/a.md"] ["src"] ["dir/src/a.md"]
    (by decide) (by decide) (by decide) (by decide) (by decide) (by rfl)

/-- Claim C7, counterexample: with rootDir missing and a pre-existing file
at the output path, the run does throw the configuration error naming
rootDir and the configuration path — but removedOutput is true: the
existing output file has been removed before the error is raised, so the
file system is touched first. -/
theorem run_missing_rootdir_removes_output :
    (run ⟨none, some "global.d.ts", ["src/*.ts"]⟩ "tsconfig.declaration.json" true []
      (fun _ => none)).removedOutput = true ∧
    (run ⟨none, some "global.d.ts", ["src/*.ts"]⟩ "tsconfig.declaration.json" true []
      (fun _ => none)).result =
      Except.error "Expected rootDir option in tsconfig.declaration.json session compilerOptions" :=
  ⟨rfl, rfl⟩

/-- Claim C7 (amended): a run whose configuration lacks rootDir (with a
usable outFile) aborts with the configuration error naming the missing
field and the configuration path, and no output is written; however the
file system is touched before the error is raised: a pre-existing file at
the output path has already been removed. -/
theorem run_missing_rootdir_amended (cfg : TsConfig) (tsPath outF : String)
    (outputExists : Bool) (fileNames : List String) (emitFile : String → Option String)
    (hroot : cfg.rootDir = none) (hout : cfg.outFile = some outF) (hne : outF ≠ "") :
    (run cfg tsPath outputExists fileNames emitFile).result =
      Except.error ("Expected rootDir option in " ++ tsPath ++ " session compilerOptions") ∧
    (run cfg tsPath outputExists fileNames emitFile).wroteOutput = false ∧
    (run cfg tsPath outputExists fileNames emitFile).removedOutput = outputExists := by
  refine ⟨?_, ?_, ?_⟩ <;> simp [run, hout, hne, getFiles, hroot]

/-- Claim C7, witness for the amended statement at a concrete run. -/
theorem run_missing_rootdir_amended_witness :
    (run ⟨none, some "out.d.ts", []⟩ "cfg.json" true [] (fun _ => none)).result =
      Except.error "Expected rootDir option in cfg.json session compilerOptions" ∧
    (run ⟨none, some "out.d.ts", []⟩ "cfg.json" true [] (fun _ => none)).wroteOutput = false ∧
    (run ⟨none, some "out.d.ts", []⟩ "cfg.json" true [] (fun _ => none)).removedOutput = true := by
  have h := run_missing_rootdir_amended ⟨none, some "out.d.ts", []⟩ "cfg.json" "out.d.ts"
    true [] (fun _ => none) rfl rfl (by decide)
  exact ⟨by rw [h.1]; rfl, h.2.1, h.2.2⟩

/-- Claim C8, counterexample: a variable statement whose modifier list is
export followed by declare does carry a declare modifier, yet the emitter
produces nothing, because only the first modifier is inspected. -/
theorem export_declare_var_not_emitted :
    generateVariableDeclarationType
      ⟨[Modifier.exportKw, Modifier.declareKw], [⟨true, "x: number"⟩], []⟩ = "" ∧
    Modifier.declareKw ∈
      (⟨[Modifier.exportKw, Modifier.declareKw], [⟨true, "x: number"⟩], []⟩ :
        VarStatement).modifiers :=
  ⟨rfl, by decide⟩

/-- Claim C8 (amended): a top-level variable statement is emitted exactly
when its first modifier is the declare keyword, in which case the output
is its documentation followed by the declare-const prelude and the
verbatim text of every identifier-named declarator; any other variable
statement — in particular an unmodified top-level const — produces the
empty string. -/
theorem var_statement_first_modifier (v : VarStatement) :
    (generateVariableDeclarationType v ≠ "" ↔
      v.modifiers.head? = some Modifier.declareKw) ∧
    (v.modifiers.head? = some Modifier.declareKw →
      generateVariableDeclarationType v =
        getJsDocComment v.jsDocs ++
          v.decls.foldl (fun acc d => if d.nameIsIdent then acc ++ d.text else acc)
            "declare const " ++ "\n\n") ∧
    generateVariableDeclarationType ⟨[], [⟨true, "x = 5"⟩], []⟩ = "" := by
  have hbody : v.modifiers.head? = some Modifier.declareKw →
      generateVariableDeclarationType v =
        getJsDocComment v.jsDocs ++
          v.decls.foldl (fun acc d => if d.nameIsIdent then acc ++ d.text else acc)
            "declare const " ++ "\n\n" := by
    intro hmod
    simp [generateVariableDeclarationType, hmod]
  refine ⟨⟨?_, ?_⟩, hbody, rfl⟩
  · intro hne
    by_contra hmod
    exact hne (by simp [generateVariableDeclarationType, hmod])
  · intro hmod hempty
    rw [hbody hmod] at hempty
    have hlen := congrArg String.length hempty
    simp only [String.length_append] at hlen
    rw [show ("\n\n" : String).length = 2 from rfl,
      show ("" : String).length = 0 from rfl] at hlen
    omega

/-- Claim C8, witness: an ambient statement whose sole modifier is the
declare keyword renders the prelude plus its declarator text. -/
theorem var_statement_first_modifier_witness :
    generateVariableDeclarationType ⟨[Modifier.declareKw], [⟨true, "x = 5"⟩], []⟩ =
      "declare const x = 5\n\n" := by
  have h := (var_statement_first_modifier
    ⟨[Modifier.declareKw], [⟨true, "x = 5"⟩], []⟩).2.1 rfl
  rw [h]; rfl

/-- Helper: every name collected by the recording loop either was pending
already or is a requested name absent from the starting record. -/
theorem addImports_fold_sound (elements : List String) :
    ∀ (rec0 news : List String) (x : String),
      x ∈ (elements.foldl addImportStep (rec0, news)).snd →
      x ∈ news ∨ (x ∈ elements ∧ x ∉ rec0) := by
  induction elements with
  | nil =>
    intro rec0 news x hx
    simp only [List.foldl_nil] at hx
    exact Or.inl hx
  | cons e es ih =>
    intro rec0 news x hx
    rw [List.foldl_cons] at hx
    by_cases hc : e ∈ rec0
    · rw [show addImportStep (rec0, news) e = (rec0, news) from by
        simp [addImportStep, hc]] at hx
      rcases ih rec0 news x hx with h | ⟨h1, h2⟩
      · exact Or.inl h
      · exact Or.inr ⟨List.mem_cons_of_mem e h1, h2⟩
    · rw [show addImportStep (rec0, news) e = (rec0 ++ [e], news ++ [e]) from by
        simp [addImportStep, hc]] at hx
      rcases ih (rec0 ++ [e]) (news ++ [e]) x hx with h | ⟨h1, h2⟩
      · rcases List.mem_append.mp h with h | h
        · exact Or.inl h
        · have hxe : x = e := by simpa using h
          subst hxe
          exact Or.inr ⟨List.mem_cons_self x es, hc⟩
      · exact Or.inr ⟨List.mem_cons_of_mem e h1, fun hm => h2 (List.mem_append_left _ hm)⟩

/-- Helper: when every requested name is already recorded, the recording
loop leaves the state unchanged. -/
theorem addImports_fold_id (elements : List String) :
    ∀ (rec0 news : List String), (∀ x ∈ elements, rec0.contains x = true) →
      elements.foldl addImportStep (rec0, news) = (rec0, news) := by
  induction elements with
  | nil => intro rec0 news _; rfl
  | cons e es ih =>
    intro rec0 news hall
    have hmem : e ∈ rec0 := by simpa using hall e (List.mem_cons_self e es)
    rw [List.foldl_cons, show addImportStep (rec0, news) e = (rec0, news) from by
      simp [addImportStep, hmem]]
    exact ih rec0 news (fun x hx => hall x (List.mem_cons_of_mem e hx))

/-- Claim C9: the import-deduplication path.  A relative or absolute
module specifier yields the empty string and leaves the record untouched;
the first call for a module path renders one combined line with all
requested named bindings (deduplicated, joined by bare commas) and records
them; a subsequent call for the same path renders a fresh import line —
never merging into the prior one — built from exactly the names not yet
recorded, and renders nothing when every requested name is already
recorded. -/
theorem import_dedup_spec (importMap : List (String × List String)) (node : ImportNode)
    (modulePath : String) (elements : List String)
    (hspec : node.moduleSpec = some modulePath)
    (hclause : node.clause = some (some (NamedBindings.named elements))) :
    ((jsStartsWith modulePath "." = true ∨ jsStartsWith modulePath "/" = true) →
      generateTypeImport importMap node = (importMap, "")) ∧
    (modulePath ≠ "" → jsStartsWith modulePath "." = false →
      jsStartsWith modulePath "/" = false →
      importMap.lookup modulePath = none →
      generateTypeImport importMap node =
        (importMap ++ [(modulePath, dedupKeepFirst elements)],
          "import \x7b" ++ String.intercalate "," (dedupKeepFirst elements) ++
            "\x7d from \x27" ++ modulePath ++ "\x27\n\n")) ∧
    (∀ recorded, modulePath ≠ "" → jsStartsWith modulePath "." = false →
      jsStartsWith modulePath "/" = false →
      importMap.lookup modulePath = some recorded →
      (∀ x ∈ newImportNames recorded elements, x ∈ elements ∧ x ∉ recorded) ∧
      ((∀ x ∈ elements, x ∈ recorded) → newImportNames recorded elements = []) ∧
      generateTypeImport importMap node =
        (mapSet importMap modulePath (addNewImports recorded elements).fst,
          renderNewImports (newImportNames recorded elements) modulePath) ∧
      renderNewImports ([] : List String) modulePath = "") := by
  refine ⟨?_, ?_, ?_⟩
  · rintro (hb | hb) <;> simp [generateTypeImport, hspec, hclause, hb]
  · intro hne hb hc hlk
    simp [generateTypeImport, hspec, hclause, hne, hb, hc, hlk]
  · intro recorded hne hb hc hlk
    refine ⟨?_, ?_, ?_, rfl⟩
    · intro x hx
      rcases addImports_fold_sound elements recorded [] x hx with h | h
      · exact absurd h (List.not_mem_nil x)
      · exact h
    · intro hall
      have hid := addImports_fold_id elements recorded []
        (fun x hx => by simpa using hall x hx)
      unfold newImportNames addNewImports
      rw [hid]
    · simp [generateTypeImport, hspec, hclause, hne, hb, hc, hlk, newImportNames,
        addNewImports]

/-- Claim C9, witness: a first call for a bare module with a duplicated
binding renders one combined deduplicated line and records both names. -/
theorem import_dedup_spec_witness :
    generateTypeImport []
      ⟨some "lodash", some (some (NamedBindings.named ["map", "map", "zip"]))⟩ =
      ([("lodash", ["map", "zip"])], "import \x7bmap,zip\x7d from \x27lodash\x27\n\n") := by
  have h := (import_dedup_spec []
    ⟨some "lodash", some (some (NamedBindings.named ["map", "map", "zip"]))⟩
    "lodash" ["map", "map", "zip"] rfl rfl).2.1 (by decide) (by decide) (by decide) rfl
  rw [h]; rfl
